import Mathlib

/-!
Verification of the RLA test-suite driver script (testsuite/rla/run.py).

The script is shallowly embedded as follows.  The external helpers
`runtest.parent`, `runtest.rw_command` and `runtest.runtest` are opaque to the
script, so they appear as parameters (`parent : String`,
`rw : String → String → String`, `rt : String → Int`).  The accumulation loop

    command = ""
    for f in files:
        command = command + runtest.rw_command (imagedir, f)

is embedded as the tail-recursive `buildCommand`, and the whole script body,
including termination via `sys.exit`, as `runScript` over fallible helpers
(a raised Python exception is an `Except.error`; normal termination is an
`Outcome.exited` carrying the exit status).  The one piece of interpreter
state the script touches, `sys.path`, is embedded as the `sysPath` field of
`InterpState` and the assignment on line 4 as `adjustSysPath`.
-/

namespace RlaRun

/-- The fixed list of sample `.rla` filenames (run.py, lines 8–12),
in source order. -/
def files : List String :=
  [ "ginsu_a_nc10.rla", "ginsu_a_ncf.rla", "ginsu_rgba_nc8.rla",
    "ginsu_rgb_nc16.rla", "imgmake_rgba_nc10.rla", "ginsu_a_nc16.rla",
    "ginsu_rgba_nc10.rla", "ginsu_rgba_ncf.rla", "ginsu_rgb_nc8.rla",
    "imgmake_rgba_nc16.rla", "ginsu_a_nc8.rla", "ginsu_rgba_nc16.rla",
    "ginsu_rgb_nc10.rla", "ginsu_rgb_ncf.rla", "imgmake_rgba_nc8.rla" ]

/-- Line 7: `imagedir = runtest.parent + "/oiio-images"`, as a function of the
external helper value `runtest.parent`. -/
def imagedir (parent : String) : String := parent ++ "/oiio-images"

/-- Lines 13–15: the accumulation loop
`command = ""; for f in fs: command = command + rw(d, f)`.
The accumulator is the final argument, mirroring the Python variable. -/
def buildCommand (rw : String → String → String) (d : String) :
    List String → String → String
  | [], acc => acc
  | f :: fs, acc => buildCommand rw d fs (acc ++ rw d f)

/-- The aggregate command the script hands to `runtest.runtest`: the loop run
over `files` with `imagedir parent` and initial accumulator `""`. -/
def commandOf (rw : String → String → String) (parent : String) : String :=
  buildCommand rw (imagedir parent) files ""

/-- The per-file round-trip sub-commands, in list order: one call
`rw_command(d, f)` per filename `f`. -/
def subCommands (rw : String → String → String) (d : String)
    (fs : List String) : List String :=
  fs.map (rw d)

/-- How the script can terminate: `exited code` is `sys.exit(code)` on line 19;
`raised e` is an exception propagating out of the script uncaught. -/
inductive Outcome (ε : Type) where
  | exited (code : Int) : Outcome ε
  | raised (e : ε) : Outcome ε
deriving DecidableEq

/-- Lines 13–15 with a fallible `rw_command`: a Python exception raised by
`rw_command` aborts the loop immediately and propagates. -/
def buildCommandE {ε : Type} (rw : String → String → Except ε String)
    (d : String) : List String → String → Except ε String
  | [], acc => Except.ok acc
  | f :: fs, acc =>
    match rw d f with
    | Except.error e => Except.error e
    | Except.ok s => buildCommandE rw d fs (acc ++ s)

/-- The whole script body (lines 7–19) over fallible helpers: resolve
`runtest.parent`, build the aggregate command, call `runtest.runtest`, and
`sys.exit` with its result; an exception at any stage propagates uncaught. -/
def runScript {ε : Type} (parent : Except ε String)
    (rw : String → String → Except ε String)
    (rt : String → Except ε Int) : Outcome ε :=
  match parent with
  | Except.error e => Outcome.raised e
  | Except.ok p =>
    match buildCommandE rw (imagedir p) files "" with
    | Except.error e => Outcome.raised e
    | Except.ok cmd =>
      match rt cmd with
      | Except.error e => Outcome.raised e
      | Except.ok ret => Outcome.exited ret

/-- An infallible `rw_command`, viewed as a fallible one that never raises. -/
def liftRw {ε : Type} (rw : String → String → String) :
    String → String → Except ε String :=
  fun d f => Except.ok (rw d f)

/-- An infallible `runtest`, viewed as a fallible one that never raises. -/
def liftRt {ε : Type} (rt : String → Int) : String → Except ε Int :=
  fun c => Except.ok (rt c)

set_option linter.unusedVariables false in
/-- The script as a process entry point, with the process argv made explicit.
The body of run.py never reads `sys.argv`, so `argv` does not occur in the
body of this definition. -/
def scriptMain {ε : Type} (argv : List String) (parent : Except ε String)
    (rw : String → String → Except ε String)
    (rt : String → Except ε Int) : Outcome ε :=
  runScript parent rw rt

/-- Process-wide interpreter state: the module search path `sys.path`, and all
other interpreter globals abstracted as a value of an arbitrary type `α`. -/
structure InterpState (α : Type) where
  sysPath : List String
  otherGlobals : α

/-- Line 4: `sys.path = ["..", "testsuite"] + sys.path`, the script's one
mutation of interpreter state. -/
def adjustSysPath {α : Type} (s : InterpState α) : InterpState α :=
  { s with sysPath := ["..", "testsuite"] ++ s.sysPath }

/-! ### Helper lemmas -/

/-- Joining a cons is appending the head to the join of the tail. -/
theorem join_cons (s : String) (l : List String) :
    String.join (s :: l) = s ++ String.join l := by
  simp [String.join_eq]
  rfl

/-- Joining the append of two lists is the append of their joins. -/
theorem join_append (l1 l2 : List String) :
    String.join (l1 ++ l2) = String.join l1 ++ String.join l2 := by
  induction l1 with
  | nil => rw [List.nil_append]; exact (String.empty_append _).symm
  | cons x xs ih =>
    rw [List.cons_append, join_cons, join_cons, ih, String.append_assoc]

/-- Running the loop with accumulator `acc` prepends `acc` to running it with
the empty accumulator. -/
theorem buildCommand_acc_eq (rw : String → String → String) (d : String) :
    ∀ (fs : List String) (acc : String),
      buildCommand rw d fs acc = acc ++ buildCommand rw d fs ""
  | [], acc => by simp [buildCommand]
  | f :: fs, acc => by
    simp only [buildCommand]
    rw [buildCommand_acc_eq rw d fs (acc ++ rw d f),
      buildCommand_acc_eq rw d fs ("" ++ rw d f),
      String.empty_append, String.append_assoc]

/-- The loop computes the join of the per-file sub-commands, in list order. -/
theorem buildCommand_eq_join (rw : String → String → String) (d : String) :
    ∀ fs : List String,
      buildCommand rw d fs "" = String.join (subCommands rw d fs)
  | [] => rfl
  | f :: fs => by
    simp only [buildCommand, subCommands, List.map_cons, join_cons]
    rw [buildCommand_acc_eq, String.empty_append, buildCommand_eq_join rw d fs]
    rfl

/-- Over helpers that never raise, the fallible loop agrees with the total
loop. -/
theorem buildCommandE_lift {ε : Type} (rw : String → String → String)
    (d : String) :
    ∀ (fs : List String) (acc : String),
      buildCommandE (ε := ε) (liftRw rw) d fs acc
        = Except.ok (buildCommand rw d fs acc)
  | [], _ => rfl
  | f :: fs, acc => by
    simp only [buildCommandE, buildCommand, liftRw]
    exact buildCommandE_lift rw d fs (acc ++ rw d f)

/-- If some file in the list makes `rw_command` raise, the loop raises: it
returns the error of the first failing call. -/
theorem buildCommandE_error {ε : Type} (rw : String → String → Except ε String)
    (d : String) :
    ∀ (fs : List String) (acc : String),
      (∃ f ∈ fs, ∃ e, rw d f = Except.error e) →
      ∃ e, (∃ f ∈ fs, rw d f = Except.error e) ∧
        buildCommandE rw d fs acc = Except.error e
  | [], _, h => absurd h (by simp)
  | f :: fs, acc, h => by
    cases hf : rw d f with
    | error e =>
      exact ⟨e, ⟨f, List.mem_cons_self f fs, hf⟩, by simp [buildCommandE, hf]⟩
    | ok s =>
      have h2 : ∃ g ∈ fs, ∃ e, rw d g = Except.error e := by
        rcases h with ⟨g, hg, e, hge⟩
        rcases List.mem_cons.mp hg with rfl | hgfs
        · rw [hf] at hge; cases hge
        · exact ⟨g, hgfs, e, hge⟩
      rcases buildCommandE_error rw d fs (acc ++ s) h2 with ⟨e, ⟨g, hgfs, hge⟩, hrun⟩
      exact ⟨e, ⟨g, List.mem_cons_of_mem f hgfs, hge⟩, by simp [buildCommandE, hf, hrun]⟩

/-! ### Claim theorems -/

/-- C1: the integer returned by `runtest.runtest` is forwarded verbatim by
`sys.exit`: with the external helpers not raising, the script exits with
exactly the helper's return value, and in particular exits with status 0
exactly when the helper returns 0. -/
theorem c1_exit_forwards_runtest (parent : String)
    (rw : String → String → String) (rt : String → Int) :
    runScript (ε := Unit) (Except.ok parent) (liftRw rw) (liftRt rt)
      = Outcome.exited (rt (commandOf rw parent)) ∧
    ∀ n : Int, rt (commandOf rw parent) = n →
      runScript (ε := Unit) (Except.ok parent) (liftRw rw) (liftRt rt)
        = Outcome.exited n := by
  have h1 : runScript (ε := Unit) (Except.ok parent) (liftRw rw) (liftRt rt)
      = Outcome.exited (rt (commandOf rw parent)) := by
    simp [runScript, buildCommandE_lift, liftRt, commandOf]
  exact ⟨h1, fun n hn => hn ▸ h1⟩

/-- C1 witness: with `runtest` returning 7 on the (empty-fragment) command, the
script exits with status 7. -/
theorem c1_exit_forwards_runtest_witness :
    runScript (ε := Unit) (Except.ok "p") (liftRw fun _ _ => "x")
        (liftRt fun _ => 7)
      = Outcome.exited 7 :=
  (c1_exit_forwards_runtest "p" (fun _ _ => "x") (fun _ => 7)).2 7 rfl

/-- C2: the aggregate command equals the concatenation, in the file list's
order and starting from the empty string, of `rw_command(imagedir, f)` for
each `f` in `files`, with no separators inserted by the script. -/
theorem c2_command_is_ordered_concat (parent : String)
    (rw : String → String → String) :
    commandOf rw parent
      = String.join (files.map (fun f => rw (imagedir parent) f)) := by
  rw [commandOf, buildCommand_eq_join]
  rfl

/-- C3: the aggregate command is the join of exactly one round-trip
sub-command per filename — one list entry per file, 15 in all — and every
filename occurs in the list exactly once. -/
theorem c3_one_subcommand_per_file (parent : String)
    (rw : String → String → String) :
    commandOf rw parent
        = String.join (subCommands rw (imagedir parent) files) ∧
    (subCommands rw (imagedir parent) files).length = files.length ∧
    files.length = 15 ∧
    ∀ f ∈ files, files.count f = 1 := by
  refine ⟨?_, ?_, rfl, ?_⟩
  · rw [commandOf, buildCommand_eq_join]
  · simp [subCommands]
  · decide

/-- C3 witness: at concrete helpers, the command is the join of the 15
sub-commands, and the first filename occurs exactly once. -/
theorem c3_one_subcommand_per_file_witness :
    commandOf (fun _ f => f) "p"
        = String.join (subCommands (fun _ f => f) (imagedir "p") files) ∧
    files.count "ginsu_a_nc10.rla" = 1 := by
  have h := c3_one_subcommand_per_file "p" (fun _ f => f)
  exact ⟨h.1, h.2.2.2 "ginsu_a_nc10.rla" (by decide)⟩

/-- C4: the file list is exactly the 15 `.rla` filenames of the spec, in the
spec's enumeration order. -/
theorem c4_files_matches_spec_list :
    files =
      [ "ginsu_a_nc10.rla", "ginsu_a_ncf.rla", "ginsu_rgba_nc8.rla",
        "ginsu_rgb_nc16.rla", "imgmake_rgba_nc10.rla", "ginsu_a_nc16.rla",
        "ginsu_rgba_nc10.rla", "ginsu_rgba_ncf.rla", "ginsu_rgb_nc8.rla",
        "imgmake_rgba_nc16.rla", "ginsu_a_nc8.rla", "ginsu_rgba_nc16.rla",
        "ginsu_rgb_nc10.rla", "ginsu_rgb_ncf.rla", "imgmake_rgba_nc8.rla" ] :=
  rfl

/-- C5: the image directory is the pure string concatenation of the external
base path with "/oiio-images", and the script uses it without any existence
check: for every `parent` string whatsoever, the script runs to completion
and the directory reaching every `rw_command` call is `parent ++
"/oiio-images"`. -/
theorem c5_imagedir_pure_concat (parent : String)
    (rw : String → String → String) (rt : String → Int) :
    imagedir parent = parent ++ "/oiio-images" ∧
    commandOf rw parent
      = String.join (files.map (fun f => rw (parent ++ "/oiio-images") f)) ∧
    runScript (ε := Unit) (Except.ok parent) (liftRw rw) (liftRt rt)
      = Outcome.exited (rt (commandOf rw parent)) := by
  refine ⟨rfl, ?_, ?_⟩
  · rw [commandOf, buildCommand_eq_join]; rfl
  · simp [runScript, buildCommandE_lift, liftRt, commandOf]

/-- C6: if any `rw_command` call raises, the script aborts with that error
uncaught — the outcome is `raised` with the first failing call's error, for
every possible `runtest` helper (so `runtest` is never invoked and `sys.exit`
is never reached). -/
theorem c6_rw_error_aborts (parent : String)
    (rw : String → String → Except Unit String)
    (h : ∃ f ∈ files, ∃ e, rw (imagedir parent) f = Except.error e) :
    ∃ e, (∃ f ∈ files, rw (imagedir parent) f = Except.error e) ∧
      ∀ rt : String → Except Unit Int,
        runScript (Except.ok parent) rw rt = Outcome.raised e := by
  rcases buildCommandE_error rw (imagedir parent) files "" h with
    ⟨e, hf, hrun⟩
  exact ⟨e, hf, fun rt => by simp [runScript, hrun]⟩

/-- C6 witness: with an `rw_command` that always raises, the script's outcome
is `raised`, independently of `runtest`. -/
theorem c6_rw_error_aborts_witness :
    ∃ e, (∃ f ∈ files,
        (fun _ _ => (Except.error () : Except Unit String)) (imagedir "p") f
          = Except.error e) ∧
      ∀ rt : String → Except Unit Int,
        runScript (Except.ok "p") (fun _ _ => Except.error ()) rt
          = Outcome.raised e :=
  c6_rw_error_aborts "p" (fun _ _ => Except.error ())
    ⟨"ginsu_a_nc10.rla", by decide, (), rfl⟩

/-- C7: command building is a homomorphism from filename lists under append to
command strings under concatenation, and inserting one filename anywhere adds
exactly one sub-command while leaving every other fragment byte-for-byte
unchanged. -/
theorem c7_buildCommand_homomorphism (rw : String → String → String)
    (d : String) (l1 l2 : List String) (f : String) :
    buildCommand rw d (l1 ++ l2) ""
        = buildCommand rw d l1 "" ++ buildCommand rw d l2 "" ∧
    subCommands rw d (l1 ++ f :: l2)
        = subCommands rw d l1 ++ [rw d f] ++ subCommands rw d l2 ∧
    (subCommands rw d (l1 ++ f :: l2)).length
        = (subCommands rw d (l1 ++ l2)).length + 1 ∧
    buildCommand rw d (l1 ++ f :: l2) ""
        = buildCommand rw d l1 "" ++ rw d f ++ buildCommand rw d l2 "" := by
  have hsplit : ∀ a b : List String,
      buildCommand rw d (a ++ b) ""
        = buildCommand rw d a "" ++ buildCommand rw d b "" := by
    intro a b
    rw [buildCommand_eq_join, buildCommand_eq_join, buildCommand_eq_join]
    simp only [subCommands, List.map_append, join_append]
  refine ⟨hsplit l1 l2, ?_, ?_, ?_⟩
  · simp [subCommands]
  · simp [subCommands]; omega
  · rw [hsplit l1 (f :: l2)]
    have hcons : buildCommand rw d (f :: l2) ""
        = rw d f ++ buildCommand rw d l2 "" := by
      simp only [buildCommand]
      rw [buildCommand_acc_eq, String.empty_append]
    rw [hcons, String.append_assoc]

/-- C8: the script reads no command-line arguments: two invocations differing
only in argv, with the external helpers held fixed, produce the identical
outcome; in particular, over non-raising helpers, the identical aggregate
command and exit status. -/
theorem c8_argv_independence {ε : Type} (argv1 argv2 : List String)
    (parent : Except ε String) (rw : String → String → Except ε String)
    (rt : String → Except ε Int) :
    scriptMain argv1 parent rw rt = scriptMain argv2 parent rw rt :=
  rfl

/-- C9: the script's one mutation of process-wide interpreter state is the
`sys.path` assignment: it prepends exactly ".." and "testsuite" in front of
the existing entries, keeping all of them in their relative order, and leaves
every other interpreter global untouched. -/
theorem c9_sys_path_frame {α : Type} (s : InterpState α) :
    (adjustSysPath s).sysPath = ".." :: "testsuite" :: s.sysPath ∧
    List.IsSuffix s.sysPath (adjustSysPath s).sysPath ∧
    (adjustSysPath s).otherGlobals = s.otherGlobals :=
  ⟨rfl, ⟨["..", "testsuite"], rfl⟩, rfl⟩

/-- C10: the empty string is the identity of the command-building fold: on an
empty list the command handed to `runtest` would be exactly `""`, and on a
singleton list `[f]` exactly `rw_command(imagedir, f)`. -/
theorem c10_empty_fold_identity (rw : String → String → String)
    (d f : String) :
    buildCommand rw d [] "" = "" ∧
    buildCommand rw d [f] "" = rw d f := by
  refine ⟨rfl, ?_⟩
  simp [buildCommand]

end RlaRun
